import Mathlib

/-!
Verification development for the Discorrecd event-dispatch subsystem
(`src/discorrecd/events.py`).

The embedding is shallow and executable:
* Python `dict` / `OrderedDict` become insertion-ordered association lists
  (`dictGet`, `dictSet`, `dictContains`), with Python's assignment semantics:
  assigning to a present key updates the value in place (keeping its
  position), assigning to an absent key appends at the end.
* a coroutine function is identified by a natural number (`methodId`); when
  a handler's underlying callable is awaited the `methodId` is recorded in a
  trace, and a parameter `fails : Nat → Bool` says which callables raise.
* Python `None` sentinels become `Option`; `call_limit` is `Option Int`
  (`none` = unlimited, mirroring `call_limit: int = None`).
* exceptions become an error value (`PyErr`) returned next to the mutated
  state, since Python mutations performed before a raise persist.
-/

namespace Discorrecd

/-- Python dict lookup `d.get(k)` (with default `None`) on an
insertion-ordered association list. -/
def dictGet {α β : Type} [DecidableEq α] : List (α × β) → α → Option β
  | [], _ => none
  | p :: rest, k => if p.1 = k then some p.2 else dictGet rest k

/-- Python `k in d`. -/
def dictContains {α β : Type} [DecidableEq α] : List (α × β) → α → Bool
  | [], _ => false
  | p :: rest, k => if p.1 = k then true else dictContains rest k

/-- Python `d[k] = v`: update in place when the key is present (the entry
keeps its position), append at the end when it is absent. -/
def dictSet {α β : Type} [DecidableEq α] : List (α × β) → α → β → List (α × β)
  | [], k, v => [(k, v)]
  | p :: rest, k, v => if p.1 = k then (k, v) :: rest else p :: dictSet rest k v

/-- The errors the dispatcher code can raise.  `attributeError` is Python's
`AttributeError` from accessing an attribute on `None`; `handlerError m` is
an arbitrary exception raised by the underlying callable `m`. -/
inductive PyErr
  | attributeError
  | handlerError (m : Nat)
  | eventNotFound
  | duplicateEvent
deriving DecidableEq, Repr

/-- `EventHandler` (events.py:169): wraps one coroutine function.
`methodId` is the identity of `self._method` (its hash); `call_limit`
is `None` (unlimited) or an int. -/
structure EventHandler where
  methodId : Nat
  _enabled : Bool
  call_limit : Option Int
deriving DecidableEq, Repr

/-- Python truthiness of the `call_limit` field, as tested by
`if self.call_limit:` — `None` and `0` are falsy, any other int truthy. -/
def truthyLimit : Option Int → Bool
  | none => false
  | some k => decide (k ≠ 0)

/-- The `enabled` property getter (events.py:202-205):
`self._enabled and (self.call_limit is None or self.call_limit > 0)`.
A pure function of the handler — reading it has no side effect. -/
def EventHandler.enabled (h : EventHandler) : Bool :=
  h._enabled && (match h.call_limit with
    | none => true
    | some k => decide (0 < k))

/-- The `enabled` property setter (events.py:207-212).  The setter's
`TypeError` branch is unreachable here because the argument is a `Bool`. -/
def EventHandler.setEnabled (h : EventHandler) (b : Bool) : EventHandler :=
  { h with _enabled := b }

/-- `EventHandler.limit` (events.py:195-200): `self.call_limit = int(limit)`. -/
def EventHandler.limit (h : EventHandler) (l : Int) : EventHandler :=
  { h with call_limit := some l }

/-- Result of `EventHandler.call`: the handler state after the call (the
decrement persists even when the callable raises), whether the underlying
callable was awaited, and whether it raised. -/
structure CallResult where
  handler : EventHandler
  invoked : Bool
  raised : Bool
deriving DecidableEq, Repr

/-- `EventHandler.call` (events.py:183-193): when effectively enabled,
decrement a truthy `call_limit` and then await the method (which raises
exactly when `fails methodId`); otherwise return `None` without touching
the budget. -/
def EventHandler.call (fails : Nat → Bool) (h : EventHandler) : CallResult :=
  if h.enabled = true then
    { handler :=
        if truthyLimit h.call_limit = true then
          { h with call_limit := h.call_limit.map (fun k => k - 1) }
        else h,
      invoked := true,
      raised := fails h.methodId }
  else { handler := h, invoked := false, raised := false }

/-- Keys of the `Event._handlers` OrderedDict.  Normal entries are keyed by
the int `hash(handler)` (= hash of the wrapped method).  `Event.remove`
assigns with the handler *object itself* as the key; an `EventHandler`
object or a function object never compares equal to an int, so those keys
live in disjoint spaces — modelled by distinct constructors. -/
inductive HKey
  | hashK (n : Nat)
  | handlerK (objId : Nat)
  | funcK (methodId : Nat)
deriving DecidableEq, Repr

/-- The values of `Event._handlers`: normally an `EventHandler`, but
`Event.remove` stores Python `None`. -/
abbrev Handlers := List (HKey × Option EventHandler)

/-- An argument of type `Handler = Union[EventHandler, CorFunc]`: either an
existing `EventHandler` object (with its own identity `objId`) or a raw
coroutine function. -/
inductive HandlerArg
  | wrapped (objId : Nat) (h : EventHandler)
  | func (methodId : Nat)
deriving DecidableEq, Repr

/-- `hash(handler)`: an `EventHandler` hashes as its wrapped method
(events.py:179-181); a function hashes as itself. -/
def HandlerArg.hashVal : HandlerArg → Nat
  | HandlerArg.wrapped _ h => h.methodId
  | HandlerArg.func m => m

/-- The dict key the handler argument denotes when used *as an object key*
(identity-based), as `Event.remove` does. -/
def HandlerArg.objKey : HandlerArg → HKey
  | HandlerArg.wrapped objId _ => HKey.handlerK objId
  | HandlerArg.func m => HKey.funcK m

/-- `Event` (events.py:86): a named channel with an enabled flag and an
ordered registry of handlers keyed by `hash(handler)`. -/
structure Event where
  name : String
  enabled : Bool
  _handlers : Handlers
deriving DecidableEq, Repr

/-- `Event.__init__` (events.py:89-96). -/
def Event.new (name : String) : Event :=
  { name := name, enabled := true, _handlers := [] }

/-- `Event.__contains__` (events.py:101-102): `hash(handler) in self._handlers`. -/
def Event.contains (e : Event) (h : HandlerArg) : Bool :=
  dictContains e._handlers (HKey.hashK (HandlerArg.hashVal h))

/-- `Event.get` (events.py:130-137): `self._handlers.get(hash(handler), None)`.
The stored value may itself be Python `None`; both an absent key and a
stored `None` yield `none`. -/
def Event.get (e : Event) (h : HandlerArg) : Option EventHandler :=
  match dictGet e._handlers (HKey.hashK (HandlerArg.hashVal h)) with
  | none => none
  | some v => v

/-- `Event.add` (events.py:139-155).  The `TypeError` branch is unreachable
here because `HandlerArg` only encodes `EventHandler` objects and coroutine
functions.  When the identity is absent the handler is wrapped if needed and
appended; then `self.get(handler).call_limit = call_limit` is executed
unconditionally — an `AttributeError` if the stored value were `None` —
and the stored entry is returned. -/
def Event.add (e : Event) (h : HandlerArg) (call_limit : Option Int) :
    Except PyErr (Event × EventHandler) :=
  let wrapped : EventHandler := match h with
    | HandlerArg.wrapped _ eh => eh
    | HandlerArg.func m => { methodId := m, _enabled := true, call_limit := none }
  let e1 := if Event.contains e h = true then e
    else { e with
           _handlers := dictSet e._handlers (HKey.hashK (HandlerArg.hashVal h)) (some wrapped) }
  match Event.get e1 h with
  | none => Except.error PyErr.attributeError
  | some eh =>
      let eh2 : EventHandler := { eh with call_limit := call_limit }
      let hs2 := dictSet e1._handlers (HKey.hashK (HandlerArg.hashVal h)) (some eh2)
      Except.ok ({ e1 with _handlers := hs2 }, eh2)

/-- `Event.remove` (events.py:157-162): literally
`self._handlers[handler] = None` — a dict *assignment* keyed by the handler
object itself, not a deletion keyed by `hash(handler)`. -/
def Event.remove (e : Event) (h : HandlerArg) : Event :=
  { e with _handlers := dictSet e._handlers (HandlerArg.objKey h) none }

/-- `Event.clear` (events.py:164-166). -/
def Event.clear (e : Event) : Event :=
  { e with _handlers := [] }

/-- What `Event.emit` returns: the channel after the call (in-place
mutations persist even when an exception aborts the loop), the trace of
method identities actually awaited, in order, and the propagated exception
if any. -/
structure EmitResult where
  event : Event
  trace : List Nat
  err : Option PyErr
deriving DecidableEq, Repr

/-- The loop body of `Event.emit` (events.py:127-128):
`for handler in self: await handler.call(...)`.  A stored `None` raises
`AttributeError` when `.call` is looked up on it; a raising callable aborts
the loop with its exception; entries already processed keep their updated
state, entries not yet reached keep their old state. -/
def emitLoop (fails : Nat → Bool) : Handlers → Handlers × List Nat × Option PyErr
  | [] => ([], [], none)
  | (k, none) :: rest => ((k, none) :: rest, [], some PyErr.attributeError)
  | (k, some h) :: rest =>
      let r := EventHandler.call fails h
      if r.raised = true then
        ((k, some r.handler) :: rest, [h.methodId], some (PyErr.handlerError h.methodId))
      else
        ((k, some r.handler) :: (emitLoop fails rest).1,
         (if r.invoked = true then [h.methodId] else []) ++ (emitLoop fails rest).2.1,
         (emitLoop fails rest).2.2)

/-- `Event.emit` (events.py:119-128): `if self.enabled and len(self):` then
iterate the registry in insertion order, awaiting each handler before the
next; otherwise return immediately. -/
def Event.emit (fails : Nat → Bool) (e : Event) : EmitResult :=
  if e.enabled = true ∧ e._handlers.length ≠ 0 then
    { event := { e with _handlers := (emitLoop fails e._handlers).1 },
      trace := (emitLoop fails e._handlers).2.1,
      err := (emitLoop fails e._handlers).2.2 }
  else { event := e, trace := [], err := none }

/-- Argument of type `EventId = Union[Event, str]`; `str(event)` is the
name for an `Event` and the string itself otherwise. -/
inductive EventId
  | ev (e : Event)
  | name (s : String)
deriving DecidableEq, Repr

/-- `str(event)` as used for the manager's dict keys. -/
def EventId.str : EventId → String
  | EventId.ev e => e.name
  | EventId.name s => s

/-- `EventManager` (events.py:14): `self._events` is a dict from name to
`Event`. -/
structure EventManager where
  _events : List (String × Event)
deriving DecidableEq, Repr

/-- `EventManager.__contains__` (events.py:20-21). -/
def EventManager.contains (m : EventManager) (e : EventId) : Bool :=
  dictContains m._events (EventId.str e)

/-- `EventManager.get` (events.py:32-39): `self._events.get(str(event), None)`,
a pure lookup that never creates. -/
def EventManager.get (m : EventManager) (e : EventId) : Option Event :=
  dictGet m._events (EventId.str e)

/-- What `EventManager.emit` returns: manager state, trace, exception. -/
structure MEmitResult where
  manager : EventManager
  trace : List Nat
  err : Option PyErr
deriving DecidableEq, Repr

/-- `EventManager.emit` (events.py:41-48): `await self.get(event).emit(...)`.
When the name is absent, `self.get(event)` is `None` and attribute lookup
`.emit` on `None` raises `AttributeError`. -/
def EventManager.emit (fails : Nat → Bool) (m : EventManager) (e : EventId) : MEmitResult :=
  match EventManager.get m e with
  | none => { manager := m, trace := [], err := some PyErr.attributeError }
  | some ev =>
      { manager := ⟨dictSet m._events (EventId.str e) (Event.emit fails ev).event⟩,
        trace := (Event.emit fails ev).trace,
        err := (Event.emit fails ev).err }

/-- `EventManager.add` (events.py:50-68).  The `TypeError` branch is
unreachable here because `EventId` only encodes `Event` and `str` arguments.
The two `Except.error PyErr.attributeError` arms are unreachable artifacts:
a key just found (or just inserted) is always retrievable. -/
def EventManager.add (m : EventManager) (e : EventId) : Except PyErr (EventManager × Event) :=
  if EventManager.contains m e = true then
    match e with
    | EventId.ev _ => Except.error PyErr.duplicateEvent
    | EventId.name _ =>
        match EventManager.get m e with
        | some ev => Except.ok (m, ev)
        | none => Except.error PyErr.attributeError
  else
    let ev := match e with
      | EventId.ev ev => ev
      | EventId.name s => Event.new s
    let m2 : EventManager := ⟨dictSet m._events (EventId.str e) ev⟩
    match EventManager.get m2 e with
    | some ev2 => Except.ok (m2, ev2)
    | none => Except.error PyErr.attributeError

/-- `EventManager.add_handler` (events.py:70-83): raise `EventNotFoundError`
when the name was never added, otherwise delegate to the channel's `add`
(the channel is mutated in place, modelled by writing it back). -/
def EventManager.add_handler (m : EventManager) (e : EventId) (h : HandlerArg)
    (call_limit : Option Int) : Except PyErr (EventManager × EventHandler) :=
  if EventManager.contains m e = false then Except.error PyErr.eventNotFound
  else
    match EventManager.get m e with
    | none => Except.error PyErr.attributeError
    | some ev =>
        match Event.add ev h call_limit with
        | Except.error err => Except.error err
        | Except.ok (ev2, eh) =>
            Except.ok (⟨dictSet m._events (EventId.str e) ev2⟩, eh)

/-- `EventMethod` (events.py:226): the declarative binding descriptor.
`methodId` is the decorated coroutine function captured by `__call__`. -/
structure EventMethod where
  methodId : Nat
  events : List String
  call_limit : Option Int
  bind : Bool
deriving DecidableEq, Repr

/-- `EventMethod._prepare_method` (events.py:267-273): bind the method to
the holder when requested.  A bound method is a fresh object whose identity
is modelled by pairing the holder with the function. -/
def EventMethod._prepare_method (em : EventMethod) (holder : Option Nat) : Nat :=
  match holder with
  | some hid => if em.bind = true then Nat.pair hid em.methodId else em.methodId
  | none => em.methodId

/-- The loop of `EventMethod.register` (events.py:264-265):
`for event in self.events: manager.add_handler(event, method)` — note the
source passes no `call_limit`, so `add_handler`'s default `None` is used.
On an exception the registrations already performed persist. -/
def registerLoop (mid : Nat) : List String → EventManager → EventManager × Option PyErr
  | [], m => (m, none)
  | ev :: rest, m =>
      match EventManager.add_handler m (EventId.name ev) (HandlerArg.func mid) none with
      | Except.error e => (m, some e)
      | Except.ok (m2, _) => registerLoop mid rest m2

/-- `EventMethod.register` (events.py:256-265). -/
def EventMethod.register (em : EventMethod) (m : EventManager) (holder : Option Nat) :
    EventManager × Option PyErr :=
  registerLoop (EventMethod._prepare_method em holder) em.events m

/-- Specification-side description of one emission's effect on a single
handler: an effectively enabled handler has a truthy budget decremented;
a handler that is not effectively enabled is left untouched. -/
def emitStep (h : EventHandler) : EventHandler :=
  if EventHandler.enabled h = true then
    if truthyLimit h.call_limit = true then
      { h with call_limit := h.call_limit.map (fun k => k - 1) }
    else h
  else h

/-- A registry whose stored values are all genuine handlers (no `None`
entries), as produced by `add`/`clear` alone. -/
def liftH (l : List (HKey × EventHandler)) : Handlers :=
  l.map (fun p => (p.1, some p.2))

/-- The same registry after one emission touched every handler. -/
def stepH (l : List (HKey × EventHandler)) : Handlers :=
  l.map (fun p => (p.1, some (emitStep p.2)))

/-- The method identities of the effectively enabled handlers, in
insertion order: the invocation trace one emission must produce. -/
def enabledTrace (l : List (HKey × EventHandler)) : List Nat :=
  (l.filter (fun p => EventHandler.enabled p.2)).map (fun p => p.2.methodId)

/-- A channel holding exactly one handler with finite budget `b`. -/
def singleEvent (nm : String) (mid : Nat) (b : Int) : Event :=
  ⟨nm, true, [(HKey.hashK mid, some ⟨mid, true, some b⟩)]⟩

/-- Iterated emission: the channel after `k` emissions together with the
trace of each emission, in order. -/
def emitSeq (fails : Nat → Bool) (e : Event) : Nat → Event × List (List Nat)
  | 0 => (e, [])
  | Nat.succ k =>
      ((emitSeq fails (Event.emit fails e).event k).1,
       (Event.emit fails e).trace :: (emitSeq fails (Event.emit fails e).event k).2)

/-! ## Dictionary lemmas -/

theorem dictGet_none_of_contains_false {α β : Type} [DecidableEq α] :
    ∀ (l : List (α × β)) (k : α), dictContains l k = false → dictGet l k = none := by
  intro l k h
  induction l with
  | nil => rfl
  | cons p rest ih =>
    by_cases hk : p.1 = k
    · simp [dictContains, hk] at h
    · simp only [dictContains, if_neg hk] at h
      simp only [dictGet, if_neg hk]
      exact ih h

theorem dictContains_of_get_some {α β : Type} [DecidableEq α] :
    ∀ (l : List (α × β)) (k : α) (v : β), dictGet l k = some v → dictContains l k = true := by
  intro l k v h
  induction l with
  | nil => exact absurd h (by simp [dictGet])
  | cons p rest ih =>
    by_cases hk : p.1 = k
    · simp [dictContains, hk]
    · simp only [dictGet, if_neg hk] at h
      simp only [dictContains, if_neg hk]
      exact ih h

theorem dictSet_append_of_contains_false {α β : Type} [DecidableEq α] :
    ∀ (l : List (α × β)) (k : α) (v : β), dictContains l k = false →
      dictSet l k v = l ++ [(k, v)] := by
  intro l k v h
  induction l with
  | nil => rfl
  | cons p rest ih =>
    by_cases hk : p.1 = k
    · simp [dictContains, hk] at h
    · simp only [dictContains, if_neg hk] at h
      simp only [dictSet, if_neg hk, List.cons_append]
      exact congrArg _ (ih h)

theorem dictGet_set_self {α β : Type} [DecidableEq α] :
    ∀ (l : List (α × β)) (k : α) (v : β), dictGet (dictSet l k v) k = some v := by
  intro l k v
  induction l with
  | nil => simp [dictSet, dictGet]
  | cons p rest ih =>
    by_cases hk : p.1 = k
    · simp [dictSet, dictGet, hk]
    · simp only [dictSet, if_neg hk]
      simp only [dictGet, if_neg hk]
      exact ih

theorem dictSet_length_of_contains {α β : Type} [DecidableEq α] :
    ∀ (l : List (α × β)) (k : α) (v : β), dictContains l k = true →
      (dictSet l k v).length = l.length := by
  intro l k v h
  induction l with
  | nil => simp [dictContains] at h
  | cons p rest ih =>
    by_cases hk : p.1 = k
    · simp [dictSet, hk]
    · simp only [dictContains, if_neg hk] at h
      simp only [dictSet, if_neg hk, List.length_cons]
      exact congrArg _ (ih h)

/-! ## Channel registry lemmas -/

theorem Event.get_some_imp (e : Event) (h : HandlerArg) (eh : EventHandler)
    (hreg : Event.get e h = some eh) :
    dictGet e._handlers (HKey.hashK (HandlerArg.hashVal h)) = some (some eh) := by
  unfold Event.get at hreg
  cases hg : dictGet e._handlers (HKey.hashK (HandlerArg.hashVal h)) with
  | none => rw [hg] at hreg; exact absurd hreg (by simp)
  | some v => rw [hg] at hreg; exact congrArg some hreg

theorem Event.contains_of_get_some (e : Event) (h : HandlerArg) (eh : EventHandler)
    (hreg : Event.get e h = some eh) : Event.contains e h = true :=
  dictContains_of_get_some _ _ _ (Event.get_some_imp e h eh hreg)

/-- `Event.add` on an already registered identity: the stored entry's
budget is overwritten in place and the updated stored entry is returned. -/
theorem Event.add_registered (e : Event) (h : HandlerArg) (eh : EventHandler) (cl : Option Int)
    (hreg : Event.get e h = some eh) :
    Event.add e h cl = Except.ok ({ e with _handlers := dictSet e._handlers (HKey.hashK (HandlerArg.hashVal h)) (some { eh with call_limit := cl }) }, { eh with call_limit := cl }) := by
  have hc : Event.contains e h = true := Event.contains_of_get_some e h eh hreg
  unfold Event.add
  simp [hc, hreg]

/-! ## Emission lemmas -/

theorem call_handler_eq_emitStep (fails : Nat → Bool) (h : EventHandler) :
    (EventHandler.call fails h).handler = emitStep h := by
  unfold EventHandler.call emitStep
  by_cases hen : EventHandler.enabled h = true <;> simp [hen]

theorem call_invoked_eq_enabled (fails : Nat → Bool) (h : EventHandler) :
    (EventHandler.call fails h).invoked = EventHandler.enabled h := by
  unfold EventHandler.call
  by_cases hen : EventHandler.enabled h = true <;> simp [hen]

theorem call_raised_eq (fails : Nat → Bool) (h : EventHandler) :
    (EventHandler.call fails h).raised = (EventHandler.enabled h && fails h.methodId) := by
  unfold EventHandler.call
  by_cases hen : EventHandler.enabled h = true <;> simp [hen]

theorem call_not_enabled (fails : Nat → Bool) (h : EventHandler)
    (hen : EventHandler.enabled h = false) :
    EventHandler.call fails h = ⟨h, false, false⟩ := by
  unfold EventHandler.call
  simp [hen]

/-- The emit loop over a prefix of genuine, non-raising handlers: each is
stepped, the effectively enabled ones are traced in order, and the loop
continues into the remainder. -/
theorem emitLoop_ok_append (fails : Nat → Bool) :
    ∀ (pre : List (HKey × EventHandler)) (rest : Handlers),
      (∀ p ∈ pre, fails p.2.methodId = false) →
      emitLoop fails (liftH pre ++ rest) =
        (stepH pre ++ (emitLoop fails rest).1,
         enabledTrace pre ++ (emitLoop fails rest).2.1,
         (emitLoop fails rest).2.2) := by
  intro pre
  induction pre with
  | nil => intro rest _; simp [liftH, stepH, enabledTrace]
  | cons p tl ih =>
    intro rest hf
    obtain ⟨k, h⟩ := p
    have hfh : fails h.methodId = false := hf (k, h) (by simp)
    have hftl : ∀ q ∈ tl, fails q.2.methodId = false := fun q hq => hf q (by simp [hq])
    have hraised : (EventHandler.call fails h).raised = false := by
      rw [call_raised_eq, hfh]; simp
    simp only [liftH, List.map_cons, List.cons_append, emitLoop, hraised, if_false,
      Bool.false_eq_true]
    rw [show liftH tl = tl.map (fun p => (p.1, some p.2)) from rfl] at ih
    simp only [List.append_eq]
    rw [ih rest hftl]
    simp only [stepH, enabledTrace, List.map_cons, List.cons_append, List.filter_cons,
      call_handler_eq_emitStep, call_invoked_eq_enabled]
    by_cases hen : EventHandler.enabled h = true
    · simp [hen]
    · simp [hen]

/-- The emit loop over a registry of genuine, non-raising handlers. -/
theorem emitLoop_ok (fails : Nat → Bool) (l : List (HKey × EventHandler))
    (hf : ∀ p ∈ l, fails p.2.methodId = false) :
    emitLoop fails (liftH l) = (stepH l, enabledTrace l, none) := by
  have := emitLoop_ok_append fails l [] hf
  simpa [emitLoop] using this

/-- One emission on a single-handler channel with positive budget: the
handler is invoked, its budget drops by one, and the callable's exception
(if any) propagates. -/
theorem emit_single_pos (fails : Nat → Bool) (nm : String) (mid : Nat) (b : Int)
    (hb : 0 < b) :
    Event.emit fails (singleEvent nm mid b) =
      ⟨singleEvent nm mid (b - 1), [mid],
       if fails mid = true then some (PyErr.handlerError mid) else none⟩ := by
  have hen : EventHandler.enabled ⟨mid, true, some b⟩ = true := by
    simp [EventHandler.enabled, hb]
  have hne : b ≠ 0 := by omega
  cases hfm : fails mid <;>
    simp [Event.emit, singleEvent, emitLoop, EventHandler.call, hen, truthyLimit, hne, hfm,
      EventHandler.enabled, hb]

/-- One emission on a single-handler channel with exhausted (or negative)
budget: nothing happens. -/
theorem emit_single_nonpos (fails : Nat → Bool) (nm : String) (mid : Nat) (b : Int)
    (hb : b ≤ 0) :
    Event.emit fails (singleEvent nm mid b) = ⟨singleEvent nm mid b, [], none⟩ := by
  have hen : EventHandler.enabled ⟨mid, true, some b⟩ = false := by
    simp [EventHandler.enabled]; omega
  simp [Event.emit, singleEvent, emitLoop, call_not_enabled fails _ hen]

/-- `m + 1` successive emissions on a single-handler channel with budget
`m`: the first `m` each invoke the handler, the last does not, and the
handler ends registered with budget `0`. -/
theorem emitSeq_single (fails : Nat → Bool) (nm : String) (mid : Nat) :
    ∀ m : Nat, emitSeq fails (singleEvent nm mid (m : Int)) (m + 1) =
      (singleEvent nm mid 0, List.replicate m [mid] ++ [[]]) := by
  intro m
  induction m with
  | zero =>
    have h0 := emit_single_nonpos fails nm mid ((0 : Nat) : Int) (by simp)
    simp only [Nat.cast_zero] at h0 ⊢
    simp [emitSeq, h0]
  | succ k ih =>
    have hpos : (0 : Int) < ((k + 1 : Nat) : Int) := by positivity
    have h1 := emit_single_pos fails nm mid ((k + 1 : Nat) : Int) hpos
    have hcast : ((k + 1 : Nat) : Int) - 1 = (k : Int) := by push_cast; ring
    rw [hcast] at h1
    have hunfold : emitSeq fails (singleEvent nm mid ((k + 1 : Nat) : Int)) (k + 1 + 1) =
        ((emitSeq fails (Event.emit fails (singleEvent nm mid ((k + 1 : Nat) : Int))).event (k + 1)).1,
         (Event.emit fails (singleEvent nm mid ((k + 1 : Nat) : Int))).trace ::
           (emitSeq fails (Event.emit fails (singleEvent nm mid ((k + 1 : Nat) : Int))).event (k + 1)).2) := rfl
    rw [hunfold, h1]
    dsimp only
    rw [ih]
    simp [List.replicate_succ]

/-! ## Claims -/

/-- Claim C1, counterexample: the claim says `emit` on an absent channel
name silently does nothing with no exception; on an empty dispatcher,
`emit "x"` in fact raises (`self.get(event)` returns the default `None`
and `.emit` is looked up on `None`, an `AttributeError`). -/
theorem C1_counterexample_emit_absent_raises :
    (EventManager.emit (fun _ => false) ⟨[]⟩ (EventId.name "x")).err = some PyErr.attributeError ∧
    ¬ (EventManager.emit (fun _ => false) ⟨[]⟩ (EventId.name "x")).err = none := by
  decide

/-- Claim C1, amended: for every Dispatcher and every channel name not
present in it, `emit(name, args...)` raises an attribute error (the
default-returning lookup yields `None` and `emit` is invoked on it);
the Dispatcher's registry is unchanged and no handler is invoked. -/
theorem C1_amended_emit_absent_attribute_error (fails : Nat → Bool) (m : EventManager)
    (s : String) (habs : EventManager.contains m (EventId.name s) = false) :
    EventManager.emit fails m (EventId.name s) = ⟨m, [], some PyErr.attributeError⟩ := by
  have hg : EventManager.get m (EventId.name s) = none :=
    dictGet_none_of_contains_false m._events s habs
  unfold EventManager.emit
  rw [hg]

/-- Witness for the amended C1 at a concrete dispatcher. -/
theorem C1_amended_witness :
    EventManager.contains ⟨[("a", Event.new "a")]⟩ (EventId.name "x") = false ∧
    EventManager.emit (fun _ => false) ⟨[("a", Event.new "a")]⟩ (EventId.name "x") =
      ⟨⟨[("a", Event.new "a")]⟩, [], some PyErr.attributeError⟩ :=
  ⟨by decide,
   C1_amended_emit_absent_attribute_error (fun _ => false) ⟨[("a", Event.new "a")]⟩ "x" (by decide)⟩

/-- Claim C2: the claim says `remove` deletes a registered entry and is a
no-op on an absent identity.  The code's `self._handlers[handler] = None`
is a dict assignment keyed by the handler object (never equal to the int
hash keys), so on a channel with one registered handler: the original
entry survives (the identity is still registered, and `emit` still invokes
method 1), a `(handler, None)` entry is appended (length 2, not 0), and
the subsequent `emit` raises `AttributeError` when it reaches the `None`
value.  On an absent identity, `remove` is not a no-op either: it appends
a `None` entry to a previously empty registry. -/
theorem C2_remove_is_not_removal :
    (Event.remove ⟨"msg", true, [(HKey.hashK 1, some ⟨1, true, none⟩)]⟩ (HandlerArg.wrapped 10 ⟨1, true, none⟩))._handlers = [(HKey.hashK 1, some ⟨1, true, none⟩), (HKey.handlerK 10, none)] ∧
    Event.contains (Event.remove ⟨"msg", true, [(HKey.hashK 1, some ⟨1, true, none⟩)]⟩ (HandlerArg.wrapped 10 ⟨1, true, none⟩)) (HandlerArg.wrapped 10 ⟨1, true, none⟩) = true ∧
    (Event.emit (fun _ => false) (Event.remove ⟨"msg", true, [(HKey.hashK 1, some ⟨1, true, none⟩)]⟩ (HandlerArg.wrapped 10 ⟨1, true, none⟩))).trace = [1] ∧
    (Event.emit (fun _ => false) (Event.remove ⟨"msg", true, [(HKey.hashK 1, some ⟨1, true, none⟩)]⟩ (HandlerArg.wrapped 10 ⟨1, true, none⟩))).err = some PyErr.attributeError ∧
    (Event.remove (Event.new "m") (HandlerArg.func 5))._handlers = [(HKey.funcK 5, none)] := by
  decide

/-- Claim C3: the claim says the invocation budget captured by the
descriptor is applied at registration.  `EventMethod.register` calls
`manager.add_handler(event, method)` without passing `self.call_limit`,
so a descriptor declared with budget `1` registers a handler with
unlimited budget (`call_limit = None`), and two successive emissions both
invoke the method — the second emission would be skipped if the budget
had been applied. -/
theorem C3_declared_budget_dropped :
    (⟨4, ["e"], some 1, false⟩ : EventMethod).call_limit = some 1 ∧
    EventMethod.register ⟨4, ["e"], some 1, false⟩ ⟨[("e", Event.new "e")]⟩ none =
      (⟨[("e", ⟨"e", true, [(HKey.hashK 4, some ⟨4, true, none⟩)]⟩)]⟩, none) ∧
    Event.get ⟨"e", true, [(HKey.hashK 4, some ⟨4, true, none⟩)]⟩ (HandlerArg.func 4) =
      some ⟨4, true, none⟩ ∧
    (EventManager.emit (fun _ => false) ⟨[("e", ⟨"e", true, [(HKey.hashK 4, some ⟨4, true, none⟩)]⟩)]⟩ (EventId.name "e")).trace = [4] ∧
    (EventManager.emit (fun _ => false) (EventManager.emit (fun _ => false) ⟨[("e", ⟨"e", true, [(HKey.hashK 4, some ⟨4, true, none⟩)]⟩)]⟩ (EventId.name "e")).manager (EventId.name "e")).trace = [4] := by
  decide

/-- Claim C4: a handler registered with finite budget `n ≥ 1` and manual
flag `true` is invoked by exactly the first `n` emissions; the `(n+1)`-th
emission does not invoke it; the handler stays in the registry with budget
`0` and is effectively disabled. -/
theorem C4_budget_exhaustion (fails : Nat → Bool) (nm : String) (mid : Nat) (n : Nat)
    (hn : 1 ≤ n) :
    emitSeq fails (singleEvent nm mid (n : Int)) (n + 1) =
      (singleEvent nm mid 0, List.replicate n [mid] ++ [[]]) ∧
    (singleEvent nm mid 0)._handlers.length = 1 ∧
    Event.get (singleEvent nm mid 0) (HandlerArg.func mid) = some ⟨mid, true, some 0⟩ ∧
    EventHandler.enabled ⟨mid, true, some 0⟩ = false := by
  refine ⟨emitSeq_single fails nm mid n, rfl, ?_, rfl⟩
  simp [Event.get, singleEvent, dictGet, HandlerArg.hashVal]

/-- Witness for C4 with budget `2`: three emissions, the first two invoke,
the third does not. -/
theorem C4_budget_exhaustion_witness :
    (1 : Nat) ≤ 2 ∧
    emitSeq (fun _ => false) (singleEvent "ping" 0 2) 3 =
      (singleEvent "ping" 0 0, [[0], [0], []]) :=
  ⟨by decide, (C4_budget_exhaustion (fun _ => false) "ping" 0 2 (by decide)).1⟩

/-- Claim C5: on an enabled channel whose registry holds genuine handlers
none of which raises, `emit` invokes exactly the effectively enabled
handlers, in insertion order (each awaited before the next — sequencing is
the loop order of `emitLoop`); skipped handlers are left untouched (no
budget consumed); a disabled channel or an empty registry makes `emit`
return immediately with no side effect. -/
theorem C5_emit_order_and_skip (fails : Nat → Bool) (nm : String)
    (hs : List (HKey × EventHandler)) (hfail : ∀ p ∈ hs, fails p.2.methodId = false) :
    Event.emit fails ⟨nm, true, liftH hs⟩ = ⟨⟨nm, true, stepH hs⟩, enabledTrace hs, none⟩ ∧
    (∀ g : EventHandler, EventHandler.enabled g = false → emitStep g = g) ∧
    (∀ e2 : Event, e2.enabled = false → Event.emit fails e2 = ⟨e2, [], none⟩) ∧
    (∀ e2 : Event, e2._handlers = [] → Event.emit fails e2 = ⟨e2, [], none⟩) := by
  refine ⟨?_, ?_, ?_, ?_⟩
  · cases hs with
    | nil => simp [Event.emit, liftH, stepH, enabledTrace]
    | cons p tl =>
      have hcond : (⟨nm, true, liftH (p :: tl)⟩ : Event).enabled = true ∧
          (⟨nm, true, liftH (p :: tl)⟩ : Event)._handlers.length ≠ 0 :=
        ⟨rfl, by simp [liftH]⟩
      unfold Event.emit
      rw [if_pos hcond]
      rw [emitLoop_ok fails (p :: tl) hfail]
  · intro g hg
    simp [emitStep, hg]
  · intro e2 he
    simp [Event.emit, he]
  · intro e2 he
    simp [Event.emit, he]

/-- Witness for C5: one unlimited enabled handler, one manually disabled,
one budget-exhausted, one with budget 2; `emit` invokes exactly handlers 1
and 4 in order, decrements only handler 4's budget, and returns no error. -/
theorem C5_emit_order_and_skip_witness :
    Event.emit (fun _ => false) ⟨"msg", true, [(HKey.hashK 1, some ⟨1, true, none⟩), (HKey.hashK 2, some ⟨2, false, none⟩), (HKey.hashK 3, some ⟨3, true, some 0⟩), (HKey.hashK 4, some ⟨4, true, some 2⟩)]⟩ =
      ⟨⟨"msg", true, [(HKey.hashK 1, some ⟨1, true, none⟩), (HKey.hashK 2, some ⟨2, false, none⟩), (HKey.hashK 3, some ⟨3, true, some 0⟩), (HKey.hashK 4, some ⟨4, true, some 1⟩)]⟩, [1, 4], none⟩ :=
  (C5_emit_order_and_skip (fun _ => false) "msg"
    [(HKey.hashK 1, ⟨1, true, none⟩), (HKey.hashK 2, ⟨2, false, none⟩),
     (HKey.hashK 3, ⟨3, true, some 0⟩), (HKey.hashK 4, ⟨4, true, some 2⟩)]
    (by decide)).1

/-- Claim C6: re-adding an already registered identity does not append a
new entry: the registry is updated in place (same length), the entry's
budget becomes the supplied value, its manual flag is untouched, and the
updated stored entry is returned. -/
theorem C6_readd_updates_in_place (e : Event) (h : HandlerArg) (eh : EventHandler)
    (cl : Option Int) (hreg : Event.get e h = some eh) :
    Event.add e h cl = Except.ok ({ e with _handlers := dictSet e._handlers (HKey.hashK (HandlerArg.hashVal h)) (some { eh with call_limit := cl }) }, { eh with call_limit := cl }) ∧
    (dictSet e._handlers (HKey.hashK (HandlerArg.hashVal h)) (some { eh with call_limit := cl })).length = e._handlers.length ∧
    ({ eh with call_limit := cl } : EventHandler)._enabled = eh._enabled ∧
    ({ eh with call_limit := cl } : EventHandler).call_limit = cl :=
  ⟨Event.add_registered e h eh cl hreg,
   dictSet_length_of_contains e._handlers (HKey.hashK (HandlerArg.hashVal h))
     (some { eh with call_limit := cl }) (Event.contains_of_get_some e h eh hreg),
   rfl, rfl⟩

/-- Witness for C6: after `add(h, 3)` the channel holds one handler with
budget 3; `add(h, 1)` leaves exactly one handler, now with budget 1. -/
theorem C6_readd_updates_in_place_witness :
    Event.get ⟨"msg", true, [(HKey.hashK 7, some ⟨7, true, some 3⟩)]⟩ (HandlerArg.func 7) =
      some ⟨7, true, some 3⟩ ∧
    Event.add ⟨"msg", true, [(HKey.hashK 7, some ⟨7, true, some 3⟩)]⟩ (HandlerArg.func 7) (some 1) =
      Except.ok (⟨"msg", true, [(HKey.hashK 7, some ⟨7, true, some 1⟩)]⟩, ⟨7, true, some 1⟩) :=
  ⟨rfl,
   (C6_readd_updates_in_place ⟨"msg", true, [(HKey.hashK 7, some ⟨7, true, some 3⟩)]⟩
     (HandlerArg.func 7) ⟨7, true, some 3⟩ (some 1) rfl).1⟩

/-- Claim C7: when a handler's callable raises during an emission, the
exception propagates to the caller of `emit` (it is not caught), the
handlers after it in the chain are not invoked and are left untouched,
and the failing handler's finite budget is decremented anyway (the
decrement precedes the invocation). -/
theorem C7_handler_failure_propagates (fails : Nat → Bool) (nm : String)
    (pre : List (HKey × EventHandler)) (k : HKey) (h : EventHandler) (post : Handlers)
    (b : Int) (hpre : ∀ p ∈ pre, fails p.2.methodId = false)
    (hen : EventHandler.enabled h = true) (hfin : h.call_limit = some b)
    (hf : fails h.methodId = true) :
    Event.emit fails ⟨nm, true, liftH pre ++ (k, some h) :: post⟩ =
      ⟨⟨nm, true, stepH pre ++ (k, some { h with call_limit := some (b - 1) }) :: post⟩,
       enabledTrace pre ++ [h.methodId], some (PyErr.handlerError h.methodId)⟩ := by
  have hb : (0 : Int) < b := by
    have := hen
    simp [EventHandler.enabled, hfin] at this
    exact this.2
  have hbne : b ≠ 0 := by omega
  have hlen : (liftH pre ++ (k, some h) :: post).length ≠ 0 := by simp
  have hrest : emitLoop fails ((k, some h) :: post) =
      ((k, some { h with call_limit := some (b - 1) }) :: post, [h.methodId],
       some (PyErr.handlerError h.methodId)) := by
    simp [emitLoop, EventHandler.call, hen, hf, truthyLimit, hfin, hbne]
  simp only [Event.emit, hlen]
  rw [emitLoop_ok_append fails pre ((k, some h) :: post) hpre, hrest]
  simp

/-- Witness for C7: handler 2 (budget 5) raises between handlers 1 and 3;
handler 1 runs, handler 3 does not, handler 2's budget drops to 4, and
the exception is returned to the caller. -/
theorem C7_handler_failure_propagates_witness :
    EventHandler.enabled ⟨2, true, some 5⟩ = true ∧
    (⟨2, true, some 5⟩ : EventHandler).call_limit = some 5 ∧
    Event.emit (fun m => decide (m = 2)) ⟨"msg", true, [(HKey.hashK 1, some ⟨1, true, none⟩), (HKey.hashK 2, some ⟨2, true, some 5⟩), (HKey.hashK 3, some ⟨3, true, none⟩)]⟩ =
      ⟨⟨"msg", true, [(HKey.hashK 1, some ⟨1, true, none⟩), (HKey.hashK 2, some ⟨2, true, some 4⟩), (HKey.hashK 3, some ⟨3, true, none⟩)]⟩, [1, 2], some (PyErr.handlerError 2)⟩ :=
  ⟨rfl, rfl,
   C7_handler_failure_propagates (fun m => decide (m = 2)) "msg"
     [(HKey.hashK 1, ⟨1, true, none⟩)] (HKey.hashK 2) ⟨2, true, some 5⟩
     [(HKey.hashK 3, some ⟨3, true, none⟩)] 5 (by decide) rfl rfl rfl⟩

/-- Claim C8: `Dispatcher.add` with a brand-new name creates and registers
an empty Channel (and returns it); `add` with an already registered name
given as a string returns the existing Channel and leaves the registry
unchanged; `add` with a Channel object whose name is already registered
raises `DuplicateEventError` (in the embedding the error is returned
instead of a new state, matching that the Python raise happens before any
mutation). -/
theorem C8_dispatcher_add (m : EventManager) (s t : String) (ev ev2 : Event)
    (hfresh : EventManager.contains m (EventId.name s) = false)
    (hreg : EventManager.get m (EventId.name t) = some ev2)
    (hdup : EventManager.contains m (EventId.ev ev) = true) :
    EventManager.add m (EventId.name s) = Except.ok (⟨m._events ++ [(s, Event.new s)]⟩, Event.new s) ∧
    (Event.new s)._handlers = [] ∧ (Event.new s).name = s ∧
    EventManager.add m (EventId.name t) = Except.ok (m, ev2) ∧
    EventManager.add m (EventId.ev ev) = Except.error PyErr.duplicateEvent := by
  refine ⟨?_, rfl, rfl, ?_, ?_⟩
  · have happ : dictSet m._events s (Event.new s) = m._events ++ [(s, Event.new s)] :=
      dictSet_append_of_contains_false m._events s (Event.new s) hfresh
    have hget : dictGet (dictSet m._events s (Event.new s)) s = some (Event.new s) :=
      dictGet_set_self m._events s (Event.new s)
    unfold EventManager.add
    simp only [hfresh, Bool.false_eq_true, if_false]
    simp only [EventManager.get, EventId.str]
    rw [hget, happ]
  · have hc : EventManager.contains m (EventId.name t) = true :=
      dictContains_of_get_some m._events t ev2 hreg
    unfold EventManager.add
    simp [hc, hreg]
  · unfold EventManager.add
    simp [hdup]

/-- Witness for C8 on a one-channel dispatcher: a fresh name is created
empty, re-adding the name `"a"` returns the existing channel unchanged,
and re-adding an `Event` object named `"a"` is a duplicate error. -/
theorem C8_dispatcher_add_witness :
    EventManager.contains ⟨[("a", Event.new "a")]⟩ (EventId.name "b") = false ∧
    EventManager.get ⟨[("a", Event.new "a")]⟩ (EventId.name "a") = some (Event.new "a") ∧
    EventManager.contains ⟨[("a", Event.new "a")]⟩ (EventId.ev (Event.new "a")) = true ∧
    EventManager.add ⟨[("a", Event.new "a")]⟩ (EventId.name "b") =
      Except.ok (⟨[("a", Event.new "a"), ("b", Event.new "b")]⟩, Event.new "b") ∧
    EventManager.add ⟨[("a", Event.new "a")]⟩ (EventId.name "a") =
      Except.ok (⟨[("a", Event.new "a")]⟩, Event.new "a") ∧
    EventManager.add ⟨[("a", Event.new "a")]⟩ (EventId.ev (Event.new "a")) =
      Except.error PyErr.duplicateEvent :=
  ⟨by decide, by decide, by decide,
   (C8_dispatcher_add ⟨[("a", Event.new "a")]⟩ "b" "a" (Event.new "a") (Event.new "a")
     (by decide) (by decide) (by decide)).1,
   (C8_dispatcher_add ⟨[("a", Event.new "a")]⟩ "b" "a" (Event.new "a") (Event.new "a")
     (by decide) (by decide) (by decide)).2.2.2.1,
   (C8_dispatcher_add ⟨[("a", Event.new "a")]⟩ "b" "a" (Event.new "a") (Event.new "a")
     (by decide) (by decide) (by decide)).2.2.2.2⟩

/-- Claim C9: effective enabled is exactly `manual flag AND (budget
unlimited OR budget > 0)` (the getter is a pure function of the handler,
so reading it has no side effect); once a finite budget is `0`, setting
the manual flag to `true` does not re-enable the handler; the `limit`
operation resets the budget and does re-arm it. -/
theorem C9_effective_enabled (h : EventHandler) (n : Int)
    (hz : h.call_limit = some 0) (hn : 1 ≤ n) :
    (∀ g : EventHandler, EventHandler.enabled g = true ↔
      (g._enabled = true ∧ (g.call_limit = none ∨ ∃ k : Int, g.call_limit = some k ∧ 0 < k))) ∧
    EventHandler.enabled (EventHandler.setEnabled h true) = false ∧
    (EventHandler.limit (EventHandler.setEnabled h true) n).call_limit = some n ∧
    EventHandler.enabled (EventHandler.limit (EventHandler.setEnabled h true) n) = true := by
  refine ⟨?_, ?_, rfl, ?_⟩
  · intro g
    cases hcl : g.call_limit with
    | none => simp [EventHandler.enabled, hcl]
    | some k => simp [EventHandler.enabled, hcl]
  · simp [EventHandler.enabled, EventHandler.setEnabled, hz]
  · have : (0 : Int) < n := by omega
    simp [EventHandler.enabled, EventHandler.limit, EventHandler.setEnabled, this]

/-- Witness for C9 at a concrete exhausted handler. -/
theorem C9_effective_enabled_witness :
    (⟨5, true, some 0⟩ : EventHandler).call_limit = some 0 ∧
    (1 : Int) ≤ 1 ∧
    EventHandler.enabled (EventHandler.setEnabled ⟨5, true, some 0⟩ true) = false ∧
    EventHandler.enabled (EventHandler.limit (EventHandler.setEnabled ⟨5, true, some 0⟩ true) 1) = true :=
  ⟨rfl, by decide,
   (C9_effective_enabled ⟨5, true, some 0⟩ 1 rfl (by decide)).2.1,
   (C9_effective_enabled ⟨5, true, some 0⟩ 1 rfl (by decide)).2.2.2⟩

/-- Claim C10: calling `add` again for an already registered handler with
the budget argument omitted (Python default `None`) resets the stored
entry's finite budget to unlimited rather than leaving it untouched. -/
theorem C10_readd_default_unlimited (e : Event) (h : HandlerArg) (eh : EventHandler)
    (b : Int) (hreg : Event.get e h = some eh) (hfin : eh.call_limit = some b) :
    Event.add e h none = Except.ok ({ e with _handlers := dictSet e._handlers (HKey.hashK (HandlerArg.hashVal h)) (some { eh with call_limit := none }) }, { eh with call_limit := none }) ∧
    ({ eh with call_limit := none } : EventHandler).call_limit = none :=
  ⟨Event.add_registered e h eh none hreg, rfl⟩

/-- Witness for C10: a handler registered with budget 3 becomes unlimited
after a budget-omitted re-add. -/
theorem C10_readd_default_unlimited_witness :
    Event.get ⟨"msg", true, [(HKey.hashK 7, some ⟨7, true, some 3⟩)]⟩ (HandlerArg.func 7) =
      some ⟨7, true, some 3⟩ ∧
    (⟨7, true, some 3⟩ : EventHandler).call_limit = some 3 ∧
    Event.add ⟨"msg", true, [(HKey.hashK 7, some ⟨7, true, some 3⟩)]⟩ (HandlerArg.func 7) none =
      Except.ok (⟨"msg", true, [(HKey.hashK 7, some ⟨7, true, none⟩)]⟩, ⟨7, true, none⟩) :=
  ⟨rfl, rfl,
   (C10_readd_default_unlimited ⟨"msg", true, [(HKey.hashK 7, some ⟨7, true, some 3⟩)]⟩
     (HandlerArg.func 7) ⟨7, true, some 3⟩ 3 rfl rfl).1⟩

end Discorrecd
